import Mathlib

/-!
Verification of the digitaltwin message synchronization and trust engine.

This file gives a shallow embedding of the repository's core logic:
the key service (signature chain), the chat service (read cursors,
pagination, group-admin fan-out), the message controller (admission
gate and dispatch), the chat gateway (local sends), and the legacy
messageService (edit/delete/read handling).  TypeScript/JavaScript
runtime behaviour is modelled explicitly: `Except` captures thrown
exceptions, `Option` captures `undefined`/`null` results, and the
`js*` helpers reproduce JavaScript array semantics (`findIndex`
returning -1, `slice` with negative indices, truthiness checks).
Collaborators that live outside the sources (redis store, transport,
blocked-contact store) are modelled from their interface contracts.
-/

namespace DigitalTwin

/-- Message type tags (src/types MessageTypes and nest MessageType combined). -/
inductive MessageType where
  | STRING
  | GIF
  | CONTACT_REQUEST
  | GROUP_UPDATE
  | FILE_UPLOAD
  | FILE
  | FILE_SHARE
  | EDIT
  | DELETE
  | QUOTE
  | READ
  | SYSTEM
deriving DecidableEq, Repr

/-- JavaScript `Array.prototype.findIndex`: index of the first element satisfying
`p`, or -1 when there is none. -/
def jsFindIndex {α : Type} (p : α → Bool) (l : List α) : Int :=
  match l.findIdx? p with
  | some i => (i : Int)
  | none => -1

/-- JavaScript `Array.prototype.slice(s, e)`: negative indices count from the end,
out-of-range indices clamp. -/
def jsSlice {α : Type} (l : List α) (s e : Int) : List α :=
  let len : Int := l.length
  let clamp : Int → Int := fun i => if i < 0 then max (len + i) 0 else min i len
  ((l.take (clamp e).toNat).drop (clamp s).toNat)

/-- JavaScript indexed array assignment `l[i] = v`: an in-range index replaces the
element; any other index (such as -1) stores an object property that is invisible
to array iteration, length and serialization, so the element list is unchanged. -/
def jsArraySet {α : Type} (l : List α) (i : Int) (v : α) : List α :=
  if 0 ≤ i ∧ i < l.length then l.set i.toNat v else l

/-- Exceptions thrown (or rejections produced) by the embedded code. -/
inductive JsError where
  /-- A JavaScript `TypeError` from dereferencing `null`/`undefined`. -/
  | typeError
  /-- `ForbiddenException('blocked')` from the admission gate. -/
  | blocked
  /-- `ForbiddenException('not allowed')` for SYSTEM messages from a non-admin. -/
  | notAllowed
  /-- `BadRequestException` (failed signature verification in handleGroupAdmin). -/
  | badRequest
  /-- A rejected `sendMessageToApi` call, tagged with the target location. -/
  | transport (location : String)
deriving DecidableEq, Repr

/-- Key type (nest key.model KeyType). -/
inductive KeyType where
  | Public
  | Private
deriving DecidableEq, Repr

/-- redis-om `Key` entity: owner id, base64 key material and key type.  An empty
`key` string models a falsy (empty/undefined) stored field. -/
structure Key where
  userId : String
  key : String
  keyType : KeyType
deriving DecidableEq, Repr

/-- A chat contact (nest contact.model): identity plus overlay-network location. -/
structure Contact where
  id : String
  location : String
deriving DecidableEq, Repr

/-- The non-signature fields of a nest `MessageDTO`.  The `replies` list is not
modelled: no nest handler in the sources reads or writes it, and it is carried
through serialization unchanged. -/
structure MsgCore where
  id : String
  mfrom : String
  mto : String
  body : String
  timeStamp : Int
  mtype : MessageType
  subject : Option String
deriving DecidableEq, Repr

/-- A base64 signature string, idealized: `EncryptionService.createBase64Signature`
is injective in the secret key and the serialized message (its non-signature
fields together with its signature list at signing time), so a signature value is
modelled as that very data. -/
inductive Sig : Type where
  | mk : String → MsgCore → List Sig → Sig

mutual

/-- String comparison of two signature values. -/
def Sig.beq : Sig → Sig → Bool
  | .mk a c l, .mk a' c' l' => a == a' && c == c' && Sig.beqList l l'

/-- String comparison of two signature lists. -/
def Sig.beqList : List Sig → List Sig → Bool
  | [], [] => true
  | x :: xs, y :: ys => Sig.beq x y && Sig.beqList xs ys
  | _, _ => false

end

instance : BEq Sig := ⟨Sig.beq⟩

mutual

/-- `Sig.beq` decides equality of signatures. -/
theorem Sig.beq_iff : ∀ a b : Sig, (Sig.beq a b = true) ↔ a = b
  | .mk a c l, .mk a' c' l' => by
    rw [Sig.beq]
    simp only [Bool.and_eq_true, beq_iff_eq, Sig.beqList_iff l l', Sig.mk.injEq]
    tauto

/-- `Sig.beqList` decides equality of signature lists. -/
theorem Sig.beqList_iff : ∀ l l' : List Sig, (Sig.beqList l l' = true) ↔ l = l'
  | [], [] => by simp [Sig.beqList]
  | [], _ :: _ => by simp [Sig.beqList]
  | _ :: _, [] => by simp [Sig.beqList]
  | x :: xs, y :: ys => by
    rw [Sig.beqList]
    simp only [Bool.and_eq_true, Sig.beq_iff x y, Sig.beqList_iff xs ys, List.cons.injEq]

end

instance : DecidableEq Sig := fun a b => decidable_of_iff _ (Sig.beq_iff a b)

instance : LawfulBEq Sig where
  eq_of_beq h := (Sig.beq_iff _ _).mp h
  rfl := (Sig.beq_iff _ _).mpr rfl

/-- A nest `MessageDTO`: core fields plus the newest-first signature list. -/
structure Msg where
  id : String
  mfrom : String
  mto : String
  body : String
  timeStamp : Int
  mtype : MessageType
  subject : Option String
  signatures : List Sig
deriving DecidableEq

/-- The serialized non-signature content of a message. -/
def Msg.core (m : Msg) : MsgCore :=
  { id := m.id, mfrom := m.mfrom, mto := m.mto, body := m.body,
    timeStamp := m.timeStamp, mtype := m.mtype, subject := m.subject }

/-- The public key corresponding to a secret key in the idealized scheme
(injective, so distinct secret keys have distinct public keys). -/
def pubOf (sk : String) : String := "pub:" ++ sk

/-- `EncryptionService.createBase64Signature({data: message, secretKey})`: signs the
message as it currently stands, including all prior signatures. -/
def createBase64Signature (message : Msg) (secretKey : String) : Sig :=
  Sig.mk secretKey message.core message.signatures

/-- `EncryptionService.verifySignature({data, signature, publicKey})`: valid iff the
signature was produced with the matching secret key over exactly this data. -/
def verifySignature (data : Msg) (signature : Sig) (publicKey : String) : Bool :=
  match signature with
  | Sig.mk sk core sigs =>
    decide (pubOf sk = publicKey ∧ core = data.core ∧ sigs = data.signatures)

/-- A stored chat entity (nest chat.model).  Messages and contacts are persisted
as JSON strings in redis; the stringify/parse pair is a bijection, so the model
stores the parsed values directly and `parseMessages`/`parseContacts` are the
identity. -/
structure ChatEnt where
  chatId : String
  name : String
  contacts : List Contact
  messages : List Msg
  acceptedChat : Bool
  adminId : String
  read : List String
  isGroup : Bool
  draft : List Msg
deriving DecidableEq

/-- The observable state of the nest node: local identity, key store, blocked
contacts, chat store, and the external collaborators (remote public keys reachable
by location, and the set of locations whose delivery currently fails). -/
structure NodeState where
  userId : String
  keys : List Key
  blockedContacts : List Contact
  chats : List ChatEnt
  pendingContacts : List Contact
  remotePublicKeys : List (String × String)
  failingLocations : List String
deriving DecidableEq

/-- `KeyService.getKey(keyType)`: first stored key of the logged-in user with the
given type (`null` when none exists). -/
def getKey (st : NodeState) (kt : KeyType) : Option Key :=
  st.keys.find? (fun k => k.userId == st.userId && k.keyType == kt)

/-- `KeyService.getPublicKeyByUserID(userID)`: first stored public key of the given
user (`null` when none exists). -/
def getPublicKeyByUserID (st : NodeState) (userID : String) : Option Key :=
  st.keys.find? (fun k => k.userId == userID && k.keyType == KeyType.Public)

/-- `KeyService.addContactPublicKey`: caches an external contact's public key. -/
def addContactPublicKey (st : NodeState) (key : String) (userID : String) : NodeState :=
  { st with keys := st.keys ++ [{ userId := userID, key := key, keyType := KeyType.Public }] }

/-- `KeyService.appendSignatureToMessage(message)`.
`const { key } = await this.getKey(KeyType.Private)` throws a TypeError when the
lookup returns `null`; `if (!key) return;` returns `undefined` (modelled `none`)
when the stored key material is falsy; otherwise the new signature is prepended
(`unshift`) and the message returned. -/
def appendSignatureToMessage (st : NodeState) (message : Msg) :
    Except JsError (Option Msg) :=
  match getKey st KeyType.Private with
  | none => .error .typeError
  | some k =>
    if k.key = "" then .ok none
    else
      let signature := createBase64Signature message k.key
      .ok (some { message with signatures := signature :: message.signatures })

/-- `ApiService.getContactPublicKey(location)`: transport collaborator fetching a
contact's public key from its node, modelled as a lookup by location. -/
def getContactPublicKey (st : NodeState) (location : String) : Option String :=
  (st.remotePublicKeys.find? (fun p => p.1 == location)).map (fun p => p.2)

/-- `KeyService.verifyMessageSignature({contact, message, signature})`.
`findIndex` yields the position of the given signature (or -1); the guard
`if (!signatureIdx) return false` is a JavaScript falsiness test, so it fires
exactly when the index is 0.  `let { key } = await this.getPublicKeyByUserID(...)`
throws a TypeError when no cached key entity exists; a falsy cached key triggers
the one-shot remote fetch, whose failure returns false.  The message state at
signing time is rebuilt by slicing off the verified signature and everything
before it. -/
def verifyMessageSignature (st : NodeState) (contact : Contact) (message : Msg)
    (signature : Sig) : Except JsError (Bool × NodeState) :=
  let signatureIdx := jsFindIndex (fun s => s == signature) message.signatures
  if signatureIdx = 0 then .ok (false, st)
  else
    match getPublicKeyByUserID st contact.id with
    | none => .error .typeError
    | some cached =>
      let resolved : Option (String × NodeState) :=
        if cached.key = "" then
          match getContactPublicKey st contact.location with
          | none => none
          | some base64key => some (base64key, addContactPublicKey st base64key contact.id)
        else some (cached.key, st)
      match resolved with
      | none => .ok (false, st)
      | some (key, st') =>
        let messageWithoutSignature :=
          { message with
            signatures :=
              jsSlice message.signatures (signatureIdx + 1) (message.signatures.length : Int) }
        .ok (verifySignature messageWithoutSignature signature key, st')

/-- `ChatService.getChat(chatId)`: first stored chat with this id, `null` if none. -/
def getChat (st : NodeState) (chatId : String) : Option ChatEnt :=
  st.chats.find? (fun c => c.chatId == chatId)

/-- `Repository.save`: persists the (mutated) chat entity under its id. -/
def saveChat (st : NodeState) (chat : ChatEnt) : NodeState :=
  { st with chats := st.chats.map (fun c => if c.chatId == chat.chatId then chat else c) }

/-- `ChatService.addMessageToChat`: pushes the stringified message onto the chat's
message list and saves the chat. -/
def addMessageToChat (st : NodeState) (chat : ChatEnt) (message : Msg) : NodeState :=
  saveChat st { chat with messages := chat.messages ++ [message] }

/-- Result shape of `ChatService.getChatMessages`. -/
structure PageResult where
  hasMore : Bool
  messages : List Msg
deriving DecidableEq

/-- `ChatService.getChatMessages({chatId, from, page, limit})`.  `if (page)` and
`else if (from)` are JavaScript truthiness tests, so `page = 0`/`null` and
`from = ""`/`null` both fall through; a missing chat makes `chat.parseMessages()`
throw a TypeError. -/
def getChatMessages (st : NodeState) (chatId : String) (fromId : Option String)
    (page : Option Int) (limit : Int) : Except JsError PageResult :=
  match getChat st chatId with
  | none => .error .typeError
  | some chat =>
    let parsedMessages := chat.messages
    let len : Int := parsedMessages.length
    let pageTruthy : Bool := match page with | some p => p != 0 | none => false
    let fromTruthy : Bool := match fromId with | some s => s != "" | none => false
    let e : Int :=
      if pageTruthy then len - (page.getD 0) * limit
      else if fromTruthy then
        jsFindIndex (fun m => m.id == fromId.getD "") parsedMessages
      else len
    let start := e - limit
    .ok { hasMore := start ≠ 0, messages := jsSlice parsedMessages start e }

/-- Lexicographic comparison of character lists (by code point). -/
def charListLe : List Char → List Char → Bool
  | [], _ => true
  | _ :: _, [] => false
  | a :: as, b :: bs =>
    if a.toNat < b.toNat then true
    else if b.toNat < a.toNat then false
    else charListLe as bs

/-- Lexicographic string order (by code point). -/
def strLe (a b : String) : Bool := charListLe a.data b.data

/-- Modelled from the spec: `MessageService.determineChatID` is not under src/
(only its callers are); §3 says a 1:1 chat id "is derived deterministically from
the two lowest-sorted participant ids" (stable regardless of who initiates). -/
def determineChatID (message : Msg) : String :=
  if strLe message.mfrom message.mto then message.mfrom ++ "-" ++ message.mto
  else message.mto ++ "-" ++ message.mfrom

/-- `ChatService.handleMessageRead`: applies a READ receipt.  `chat.read` is a
string array; `indexOf(message.from)` locates the sender's entry, the timestamps
of the old and new read targets are compared, and the sender's entry is then
overwritten with the new target's message id.  A missing chat, or a missing
old or new target message, throws a TypeError; when `indexOf` yields -1 the
method falls through and returns `undefined` (modelled `none`) without saving. -/
def handleMessageRead (st : NodeState) (message : Msg) :
    Except JsError (Option NodeState) :=
  let chatId := determineChatID message
  match getChat st chatId with
  | none => .error .typeError
  | some chat =>
    let chatMessages := chat.messages
    let newRead := chatMessages.find? (fun m => m.id == message.body)
    let oldIdx := jsFindIndex (fun r => r == message.mfrom) chat.read
    if 0 ≤ oldIdx then
      let oldRead := chatMessages.find? (fun m => m.id == chat.read.getD oldIdx.toNat "")
      match newRead, oldRead with
      | some nr, some olr =>
        if ¬ (nr.timeStamp < olr.timeStamp) then
          .ok (some (saveChat st { chat with read := jsArraySet chat.read oldIdx message.body }))
        else .ok none
      | _, _ => .error .typeError
    else .ok none

/-- Modelled from the spec: `MessageService.verifySignedMessage` is not under src/
(only its caller is); §4.5 says the group-admin fan-out "verifies the sender's
signature" and §4.1 that a missing signature fails closed.  Modelled as checking
the newest signature against the sender's cached public key over the message as
it stood when that signature was produced. -/
def verifySignedMessage (st : NodeState) (fromContact : Option Contact)
    (signedMessage : Msg) : Bool :=
  match fromContact, signedMessage.signatures with
  | some c, s :: rest =>
    match getPublicKeyByUserID st c.id with
    | some k => verifySignature { signedMessage with signatures := rest } s k.key
    | none => false
  | _, _ => false

/-- `ApiService.sendMessageToApi`: transport collaborator; the call rejects exactly
for locations listed in `failingLocations`. -/
def sendMessageToApi (st : NodeState) (location : String) : Except JsError Unit :=
  if st.failingLocations.contains location then .error (.transport location)
  else .ok ()

/-- `Promise.all` over the per-branch outcomes: every branch is started, the
combined promise resolves only when all branches resolve, and rejects with a
branch's rejection otherwise. -/
def promiseAll : List (Except JsError Unit) → Except JsError Unit
  | [] => .ok ()
  | .ok () :: rest => promiseAll rest
  | .error e :: _ => .error e

/-- `ChatService.handleGroupAdmin({chat, message})`: verifies the sender's
signature (`BadRequestException` when invalid), appends the node's own signature,
and forwards the result to every chat contact except the local user via
`Promise.all` — so a single rejected delivery rejects the whole call and no
failure is recorded anywhere.  Returns the message object as the caller sees it
afterwards (the code mutates the shared message) and the attempted destinations. -/
def handleGroupAdmin (st : NodeState) (chat : ChatEnt) (message : Msg) :
    Except JsError (Msg × List String) :=
  let contacts := chat.contacts
  let validSignature :=
    verifySignedMessage st (contacts.find? (fun c => c.id == message.mfrom)) message
  if ¬ validSignature then .error .badRequest
  else
    match appendSignatureToMessage st message with
    | .error e => .error e
    | .ok signedMessage =>
      let receivingContacts := contacts.filter (fun c => c.id != st.userId)
      let attempts := receivingContacts.map (fun c => c.location)
      match promiseAll (receivingContacts.map (fun c => sendMessageToApi st c.location)) with
      | .error e => .error e
      | .ok _ => .ok (signedMessage.getD message, attempts)

/-- Modelled from the spec: `BlockedContactService.getBlockedContactList` is not
under src/ (only its caller is); §6 gives the collaborator contract
`listBlocked(offset, count) -> list of id`, a single page of the blocked store. -/
def getBlockedContactList (st : NodeState) (offset count : Nat) : List Contact :=
  (st.blockedContacts.drop offset).take count

/-- Which registered type handler performed the dispatch. -/
inductive Dispatched where
  | contactRequest
  | system
deriving DecidableEq, Repr

/-- Modelled from the spec: `ContactRequestMessageState.handle` is not under src/
(only its registration is); §4.3 says CONTACT_REQUEST "creates or updates a
pending Contact record tied to the sender; does not create a Chat until
explicitly accepted". -/
def handleContactRequest (st : NodeState) (message : Msg) : NodeState :=
  if st.pendingContacts.any (fun c => c.id == message.mfrom) then st
  else
    { st with
      pendingContacts :=
        st.pendingContacts ++ [{ id := message.mfrom, location := message.body }] }

/-- Modelled from the spec: `SystemMessageState.handle` is not under src/ (only
its registration is); §4.3 says SYSTEM "mutates chat membership/metadata" and "is
never appended to the visible message log".  Its precise effect is outside src/,
modelled as a chat-metadata update. -/
def handleSystem (st : NodeState) (chat : ChatEnt) (message : Msg) : NodeState :=
  saveChat st { chat with name := message.body }

/-- `MessageController.handleIncomingMessage` (PUT /messages): the inbound
pipeline.  In source order: the blocked-contact page is checked first
(`ForbiddenException('blocked')`); then the chat is resolved (dereferencing a
`null` chat throws a TypeError); a SYSTEM message from a sender other than the
chat's admin is rejected (`ForbiddenException('not allowed')`); when the local
node is the group's admin the fan-out runs (and its rejection propagates);
finally the per-type handler dispatches — the handler map only contains
CONTACT_REQUEST and SYSTEM, so `.get(type).handle` throws a TypeError for every
other type.  A thrown error (`Except.error`) leaves the node state untouched:
no store write happens on any rejecting path. -/
def handleIncomingMessage (st : NodeState) (message : Msg) (offset count : Nat) :
    Except JsError (NodeState × Dispatched) :=
  let blockedContacts := getBlockedContactList st offset count
  let isBlocked := blockedContacts.find? (fun c => c.id == message.mfrom)
  if isBlocked.isSome then .error .blocked
  else
    let chatId := determineChatID message
    match getChat st chatId with
    | none => .error .typeError
    | some chat =>
      if message.mtype = MessageType.SYSTEM ∧ chat.adminId ≠ message.mfrom then
        .error .notAllowed
      else
        let afterFanout : Except JsError Msg :=
          if chat.isGroup ∧ chat.adminId = st.userId then
            (handleGroupAdmin st chat message).map (fun r => r.1)
          else .ok message
        match afterFanout with
        | .error e => .error e
        | .ok shared =>
          match message.mtype with
          | MessageType.CONTACT_REQUEST => .ok (handleContactRequest st shared, .contactRequest)
          | MessageType.SYSTEM => .ok (handleSystem st chat shared, .system)
          | _ => .error .typeError

/-- An event emitted to connected socket clients. -/
inductive GatewayEvent where
  | message (payload : Msg)
deriving DecidableEq

/-- `ChatGateway.handleIncomingMessage` (socket 'message').  The handler first
overwrites `message.from` with the locally configured userId, signs, resolves the
chat `${from}-${to}` (silent return when missing — which happens before the
`signedMessage.id = message.id` write, so an `undefined` signed message only
throws when a chat was found), then applies READ receipts or appends the signed
message.  Events are emitted to clients just before the persistence call; an
error path drops its events together with its state. -/
def gatewayHandleIncomingMessage (st : NodeState) (message : Msg) :
    Except JsError (NodeState × List GatewayEvent) :=
  let message := { message with mfrom := st.userId }
  match appendSignatureToMessage st message with
  | .error e => .error e
  | .ok signedMessageOpt =>
    match getChat st (message.mfrom ++ "-" ++ message.mto) with
    | none => .ok (st, [])
    | some chat =>
      match signedMessageOpt with
      | none => .error .typeError
      | some signedMessage0 =>
        let signedMessage := { signedMessage0 with id := message.id }
        if signedMessage.mtype = MessageType.READ then
          match handleMessageRead st signedMessage with
          | .error e => .error e
          | .ok (some st') => .ok (st', [.message signedMessage])
          | .ok none => .ok (st, [.message signedMessage])
        else
          .ok (addMessageToChat st chat signedMessage, [.message signedMessage])

/-- A legacy message (src/models/message, revived by messageService.parseMessage);
constructor argument order follows the Message constructor: from, to, body,
timeStamp, id, type, replies, subject, signatures, updated.  The body is either a
string payload or a full message object (the replacement carried by an EDIT). -/
inductive LMsg : Type where
  | mk : String → String → Sum String LMsg → Int → String → MessageType →
      List LMsg → Option String → List String → Option Int → LMsg

/-- Sender id. -/
def LMsg.mfrom : LMsg → String
  | .mk f _ _ _ _ _ _ _ _ _ => f

/-- Recipient id. -/
def LMsg.mto : LMsg → String
  | .mk _ t _ _ _ _ _ _ _ _ => t

/-- Payload. -/
def LMsg.body : LMsg → Sum String LMsg
  | .mk _ _ b _ _ _ _ _ _ _ => b

/-- Timestamp (Date.getTime). -/
def LMsg.timeStamp : LMsg → Int
  | .mk _ _ _ ts _ _ _ _ _ _ => ts

/-- Message id. -/
def LMsg.id : LMsg → String
  | .mk _ _ _ _ i _ _ _ _ _ => i

/-- Message type tag. -/
def LMsg.mtype : LMsg → MessageType
  | .mk _ _ _ _ _ ty _ _ _ _ => ty

/-- Reply list. -/
def LMsg.replies : LMsg → List LMsg
  | .mk _ _ _ _ _ _ rs _ _ _ => rs

/-- Optional reference to another message id (reply/edit target). -/
def LMsg.subject : LMsg → Option String
  | .mk _ _ _ _ _ _ _ subj _ _ => subj

/-- Signature strings (opaque in the legacy model). -/
def LMsg.sigs : LMsg → List String
  | .mk _ _ _ _ _ _ _ _ sg _ => sg

/-- Timestamp of the last in-place edit. -/
def LMsg.updated : LMsg → Option Int
  | .mk _ _ _ _ _ _ _ _ _ upd => upd

/-- In-place `msg.body = v`. -/
def LMsg.setBody (m : LMsg) (v : Sum String LMsg) : LMsg :=
  match m with
  | .mk f t _ ts i ty rs subj sg upd => .mk f t v ts i ty rs subj sg upd

/-- In-place `msg.type = v`. -/
def LMsg.setType (m : LMsg) (v : MessageType) : LMsg :=
  match m with
  | .mk f t b ts i _ rs subj sg upd => .mk f t b ts i v rs subj sg upd

/-- In-place `msg.updated = v`. -/
def LMsg.setUpdated (m : LMsg) (v : Option Int) : LMsg :=
  match m with
  | .mk f t b ts i ty rs subj sg _ => .mk f t b ts i ty rs subj sg v

/-- In-place `msg.replies = v`. -/
def LMsg.setReplies (m : LMsg) (v : List LMsg) : LMsg :=
  match m with
  | .mk f t b ts i ty _ subj sg upd => .mk f t b ts i ty v subj sg upd

mutual

/-- messageService.parseMessage: rebuilds a typed Message.  Every case passes the
fields through (dates are revived), the replies are parsed recursively, and
FILE_UPLOAD becomes a FILE message (its blob is written to external file storage,
which is outside this core). -/
def parseMessage : LMsg → LMsg
  | .mk f t b ts i ty rs subj sg upd =>
    let ty' := if ty = MessageType.FILE_UPLOAD then MessageType.FILE else ty
    .mk f t b ts i ty' (parseMessages rs) subj sg upd

/-- messageService.parseMessages: parses each element. -/
def parseMessages : List LMsg → List LMsg
  | [] => []
  | m :: ms => parseMessage m :: parseMessages ms

end

/-- A legacy chat (src/models/chat): the fields the embedded services read.  The
read-cursor map stores whatever value a READ body carried (a message-id string
for well-formed receipts). -/
structure LChat where
  chatId : String
  contacts : List Contact
  messages : List LMsg
  adminId : String
  isGroup : Bool
  read : List (String × Sum String LMsg)

/-- Modelled from the spec: dataService.getChat is not under src/ (only its
callers are); §6 KeyValueStore `find` — the stored chat with this id, absent when
none (the callers dereference the result unconditionally). -/
def getChatLegacy (chats : List LChat) (chatId : String) : Option LChat :=
  chats.find? (fun c => c.chatId == chatId)

/-- Modelled from the spec: dataService.persistChat is not under src/ (only its
callers are); §6 KeyValueStore `save` — writes the chat back under its id. -/
def persistChat (chats : List LChat) (chat : LChat) : List LChat :=
  chats.map (fun c => if c.chatId == chat.chatId then chat else c)

/-- JavaScript map read `read[k]`: `undefined` when the key is absent. -/
def readLookup (read : List (String × Sum String LMsg)) (k : String) :
    Option (Sum String LMsg) :=
  (read.find? (fun p => p.1 == k)).map (fun p => p.2)

/-- JavaScript map write `read[k] = v`. -/
def readSet (read : List (String × Sum String LMsg)) (k : String)
    (v : Sum String LMsg) : List (String × Sum String LMsg) :=
  if read.any (fun p => p.1 == k) then
    read.map (fun p => if p.1 == k then (k, v) else p)
  else read ++ [(k, v)]

/-- JavaScript `===` between a message id (string) and an arbitrary read value:
only a string value can be equal; an object or `undefined` never is. -/
def idMatchesVal (i : String) : Option (Sum String LMsg) → Bool
  | some (Sum.inl s) => i == s
  | _ => false

/-- Modelled from the spec: routes/messages.determineChatId is not under src/
(only its caller is); §3's deterministic 1:1 chat id from the two lowest-sorted
participant ids. -/
def determineChatIdLegacy (message : LMsg) : String :=
  if strLe message.mfrom message.mto then message.mfrom ++ "-" ++ message.mto
  else message.mto ++ "-" ++ message.mfrom

/-- messageService.handleRead: applies a READ receipt.  The new target is the
message named by the receipt's body; the old target is the message named by the
sender's current cursor.  When both targets are found and the new one is strictly
older the receipt is discarded without persisting; otherwise
`chat.read[message.from] = message.body` and the chat persists. -/
def handleRead (chats : List LChat) (message : LMsg) : Except JsError (List LChat) :=
  let chatId := determineChatIdLegacy message
  match getChatLegacy chats chatId with
  | none => .error .typeError
  | some chat =>
    let newRead := chat.messages.find? (fun m => idMatchesVal m.id (some message.body))
    let oldRead :=
      chat.messages.find? (fun m => idMatchesVal m.id (readLookup chat.read message.mfrom))
    let discard : Bool :=
      match oldRead, newRead with
      | some olr, some nr => nr.timeStamp < olr.timeStamp
      | _, _ => false
    if discard then .ok chats
    else
      .ok (persistChat chats
        { chat with read := readSet chat.read message.mfrom message.body })

/-- messageService.editReply: an absent parent (`messageIndex === -1`) or an
absent reply (`replyIndex === -1`) returns silently without persisting; a found
reply gets the new body and an `updated` stamp (`new Date()`, passed here as
`now`), then the chat persists. -/
def editReply (chats : List LChat) (chatId : String) (newMessage : LMsg) (now : Int) :
    Except JsError (List LChat) :=
  match getChatLegacy chats chatId with
  | none => .error .typeError
  | some chat =>
    let messageIndex :=
      jsFindIndex (fun mes => newMessage.subject == some mes.id) chat.messages
    if messageIndex = -1 then .ok chats
    else
      match chat.messages.get? messageIndex.toNat with
      | none => .ok chats
      | some parent =>
        let replyIndex := jsFindIndex (fun r => r.id == newMessage.id) parent.replies
        if replyIndex = -1 then .ok chats
        else
          match parent.replies.get? replyIndex.toNat with
          | none => .ok chats
          | some reply =>
            let reply' := (reply.setBody newMessage.body).setUpdated (some now)
            let parent' := parent.setReplies (parent.replies.set replyIndex.toNat reply')
            let chat' := { chat with messages := chat.messages.set messageIndex.toNat parent' }
            .ok (persistChat chats chat')

/-- messageService.editMessage.  A message with a truthy subject is routed to
editReply.  Otherwise: DELETE looks the target up by the incoming message's own
id and overwrites its body and type in place — with an absent target
`chat.messages[-1].body = ...` throws a TypeError; EDIT parses the replacement
message carried in the body and writes it over the target's slot — with an
absent target `chat.messages[-1] = ...` stores an invisible object property and
the element list is unchanged (a string body parses to a message whose id is
`undefined`, which matches nothing, with the same effect); any other type falls
through the switch.  The chat is then persisted. -/
def editMessage (chats : List LChat) (chatId : String) (newMessage : LMsg) (now : Int) :
    Except JsError (List LChat) :=
  let subjectTruthy : Bool := match newMessage.subject with | some s => s != "" | none => false
  if subjectTruthy then editReply chats chatId newMessage now
  else
    match getChatLegacy chats chatId with
    | none => .error .typeError
    | some chat =>
      match newMessage.mtype with
      | MessageType.DELETE =>
        let index := jsFindIndex (fun mes => mes.id == newMessage.id) chat.messages
        if index = -1 then .error .typeError
        else
          match chat.messages.get? index.toNat with
          | none => .error .typeError
          | some target =>
            let target' := (target.setBody newMessage.body).setType MessageType.DELETE
            .ok (persistChat chats
              { chat with messages := chat.messages.set index.toNat target' })
      | MessageType.EDIT =>
        match newMessage.body with
        | Sum.inr raw =>
          let editedMessage := parseMessage raw
          let index := jsFindIndex (fun mes => mes.id == editedMessage.id) chat.messages
          .ok (persistChat chats
            { chat with messages := jsArraySet chat.messages index editedMessage })
        | Sum.inl _ => .ok (persistChat chats chat)
      | _ => .ok (persistChat chats chat)

/-! Concrete scenario fixtures used to evaluate the embedded code. -/

/-- The empty node state, parameterized by the local user id. -/
def emptyNode (uid : String) : NodeState :=
  { userId := uid, keys := [], blockedContacts := [], chats := [],
    pendingContacts := [], remotePublicKeys := [], failingLocations := [] }

/-- alice's node, holding her private key. -/
def aliceNode : NodeState :=
  { emptyNode "alice" with
    keys := [{ userId := "alice", key := "skA", keyType := KeyType.Private }] }

/-- carol's node, holding her private key. -/
def carolNode : NodeState :=
  { emptyNode "carol" with
    keys := [{ userId := "carol", key := "skC", keyType := KeyType.Private }] }

/-- bob's node, with alice's and carol's public keys cached. -/
def bobNode : NodeState :=
  { emptyNode "bob" with
    keys := [{ userId := "alice", key := pubOf "skA", keyType := KeyType.Public },
             { userId := "carol", key := pubOf "skC", keyType := KeyType.Public }] }

/-- alice as a contact. -/
def aliceContact : Contact := { id := "alice", location := "locA" }

/-- carol as a contact. -/
def carolContact : Contact := { id := "carol", location := "locC" }

/-- An unsigned message from alice to bob. -/
def c1Msg0 : Msg :=
  { id := "m1", mfrom := "alice", mto := "bob", body := "hello",
    timeStamp := 100, mtype := MessageType.STRING, subject := none, signatures := [] }

/-- alice's signature over the unsigned message. -/
def c1Sig1 : Sig := createBase64Signature c1Msg0 "skA"

/-- The message once signed by alice. -/
def c1Msg1 : Msg := { c1Msg0 with signatures := [c1Sig1] }

/-- carol's signature over the once-signed message (the chain's second hop). -/
def c1Sig2 : Sig := createBase64Signature c1Msg1 "skC"

/-- The message signed by alice and then by carol (signatures newest-first). -/
def c1Msg2 : Msg := { c1Msg1 with signatures := [c1Sig2, c1Sig1] }

/-- A node with 26 blocked contacts, named "blocked0" … "blocked25". -/
def c2St : NodeState :=
  { emptyNode "me" with
    blockedContacts :=
      (List.range 26).map (fun i => { id := "blocked" ++ toString i,
                                      location := "loc" ++ toString i }) }

/-- A contact request from the 26th blocked contact. -/
def c2Msg : Msg :=
  { id := "x", mfrom := "blocked25", mto := "me", body := "locB25",
    timeStamp := 1, mtype := MessageType.CONTACT_REQUEST, subject := none, signatures := [] }

/-- A node with a single blocked contact "eve". -/
def c2StW : NodeState :=
  { emptyNode "me" with blockedContacts := [{ id := "eve", location := "locE" }] }

/-- A contact request from the blocked contact "eve". -/
def c2MsgW : Msg :=
  { id := "y", mfrom := "eve", mto := "me", body := "locE",
    timeStamp := 1, mtype := MessageType.CONTACT_REQUEST, subject := none, signatures := [] }

/-- Group chat: admin "m0", members m0, m1, m2 (chat id as derived for m1 → gr). -/
def c3Chat : ChatEnt :=
  { chatId := "gr-m1", name := "group",
    contacts := [{ id := "m0", location := "locM0" },
                 { id := "m1", location := "locM1" },
                 { id := "m2", location := "locM2" }],
    messages := [], acceptedChat := true, adminId := "m0", read := [],
    isGroup := true, draft := [] }

/-- A plain message from member m1 to the group, before m1 signs it. -/
def c3Msg0 : Msg :=
  { id := "g1", mfrom := "m1", mto := "gr", body := "hi all",
    timeStamp := 7, mtype := MessageType.STRING, subject := none, signatures := [] }

/-- The plain message as signed by m1. -/
def c3Msg : Msg :=
  { c3Msg0 with signatures := [createBase64Signature c3Msg0 "skM1"] }

/-- Admin m0's node: m0's private key and m1's public key, the group chat stored,
and delivery to m2's location currently failing. -/
def c3AdminNode : NodeState :=
  { emptyNode "m0" with
    keys := [{ userId := "m0", key := "skM0", keyType := KeyType.Private },
             { userId := "m1", key := pubOf "skM1", keyType := KeyType.Public }],
    chats := [c3Chat],
    failingLocations := ["locM2"] }

/-- The same admin node with all deliveries succeeding. -/
def c3AdminNodeOk : NodeState := { c3AdminNode with failingLocations := [] }

/-- The nest chat for the READ-cursor scenario: `read` still holds the contact id
"alice" (its initial content per the model's documentation), and one message
happens to carry the id "alice" so that the first receipt gets past the
old-target lookup. -/
def c4Chat : ChatEnt :=
  { chatId := "alice-me", name := "alice", contacts := [aliceContact],
    messages :=
      [{ id := "alice", mfrom := "me", mto := "alice", body := "old", timeStamp := 5,
         mtype := MessageType.STRING, subject := none, signatures := [] },
       { id := "a", mfrom := "me", mto := "alice", body := "first", timeStamp := 10,
         mtype := MessageType.STRING, subject := none, signatures := [] },
       { id := "b", mfrom := "me", mto := "alice", body := "second", timeStamp := 20,
         mtype := MessageType.STRING, subject := none, signatures := [] }],
    acceptedChat := true, adminId := "me", read := ["alice"], isGroup := false, draft := [] }

/-- Node state holding the READ-cursor chat. -/
def c4St : NodeState := { emptyNode "me" with chats := [c4Chat] }

/-- READ receipt R1 from alice targeting message "a" (timestamp 10). -/
def c4Read1 : Msg :=
  { id := "r1", mfrom := "alice", mto := "me", body := "a", timeStamp := 30,
    mtype := MessageType.READ, subject := none, signatures := [] }

/-- READ receipt R2 from alice targeting message "b" (timestamp 20, the later target). -/
def c4Read2 : Msg :=
  { id := "r2", mfrom := "alice", mto := "me", body := "b", timeStamp := 31,
    mtype := MessageType.READ, subject := none, signatures := [] }

/-- The node state after R1: alice's slot in `read` now holds the message id "a". -/
def c4St2 : NodeState :=
  { c4St with chats := [{ c4Chat with read := ["a"] }] }

/-- Legacy chat for the same scenario: messages "a" (ts 10) and "b" (ts 20), no
cursor recorded yet. -/
def c4LChat : LChat :=
  { chatId := "alice-me", contacts := [aliceContact],
    messages :=
      [.mk "me" "alice" (Sum.inl "first") 10 "a" MessageType.STRING [] none [] none,
       .mk "me" "alice" (Sum.inl "second") 20 "b" MessageType.STRING [] none [] none],
    adminId := "me", isGroup := false, read := [] }

/-- Legacy READ receipt R1 from alice targeting "a". -/
def c4LRead1 : LMsg :=
  .mk "alice" "me" (Sum.inl "a") 30 "r1" MessageType.READ [] none [] none

/-- Legacy READ receipt R2 from alice targeting "b". -/
def c4LRead2 : LMsg :=
  .mk "alice" "me" (Sum.inl "b") 31 "r2" MessageType.READ [] none [] none

/-- Legacy store after alice's cursor moved to "a". -/
def c4LChatsA : List LChat := [{ c4LChat with read := [("alice", Sum.inl "a")] }]

/-- Legacy store after alice's cursor moved to "b". -/
def c4LChatsB : List LChat := [{ c4LChat with read := [("alice", Sum.inl "b")] }]

/-- A node without any private-key record. -/
def c6NoKeyNode : NodeState := emptyNode "me"

/-- A node whose private-key record exists but has empty (falsy) key material. -/
def c6EmptyKeyNode : NodeState :=
  { emptyNode "me" with
    keys := [{ userId := "me", key := "", keyType := KeyType.Private }] }

/-- A message to be signed. -/
def c6Msg : Msg :=
  { id := "s1", mfrom := "me", mto := "you", body := "hey",
    timeStamp := 2, mtype := MessageType.STRING, subject := none, signatures := [] }

/-- A legacy chat with one top-level message "m1" carrying one reply "r1". -/
def c7Chat : LChat :=
  { chatId := "chat1", contacts := [],
    messages :=
      [.mk "me" "you" (Sum.inl "original") 1 "m1" MessageType.STRING
        [.mk "you" "me" (Sum.inl "reply") 2 "r1" MessageType.STRING [] (some "m1") [] none]
        none [] none],
    adminId := "me", isGroup := false, read := [] }

/-- The legacy chat store for the edit/delete scenarios. -/
def c7Chats : List LChat := [c7Chat]

/-- A DELETE whose own id "zz" matches no stored message. -/
def c7DeleteMiss : LMsg :=
  .mk "me" "you" (Sum.inl "tombstone") 3 "zz" MessageType.DELETE [] none [] none

/-- An EDIT routed to the reply path whose subject "nope" matches no parent. -/
def c7EditParentMiss : LMsg :=
  .mk "me" "you" (Sum.inl "edited") 4 "r1" MessageType.EDIT [] (some "nope") [] none

/-- An EDIT routed to the reply path: parent "m1" exists, reply id "zz" does not. -/
def c7EditReplyMiss : LMsg :=
  .mk "me" "you" (Sum.inl "edited") 6 "zz" MessageType.EDIT [] (some "m1") [] none

/-- A replacement message whose id "qq" matches no stored message. -/
def c7MissingReplacement : LMsg :=
  .mk "me" "you" (Sum.inl "new") 7 "qq" MessageType.STRING [] none [] none

/-- A top-level EDIT carrying a replacement with an absent target id. -/
def c7EditTopMiss : LMsg :=
  .mk "me" "you" (Sum.inr c7MissingReplacement) 8 "e7" MessageType.EDIT [] none [] none

/-- The stored top-level message of the edit/delete scenario chat. -/
def c7M1 : LMsg :=
  .mk "me" "you" (Sum.inl "original") 1 "m1" MessageType.STRING
    [.mk "you" "me" (Sum.inl "reply") 2 "r1" MessageType.STRING [] (some "m1") [] none]
    none [] none

/-- A legacy chat with one top-level message "t1". -/
def c8Chat : LChat :=
  { chatId := "chat8", contacts := [],
    messages := [.mk "me" "you" (Sum.inl "before") 1 "t1" MessageType.STRING [] none [] none],
    adminId := "me", isGroup := false, read := [] }

/-- The chat store for the idempotence scenario. -/
def c8Chats : List LChat := [c8Chat]

/-- The replacement message an EDIT carries (same id "t1", new body). -/
def c8Replacement : LMsg :=
  .mk "me" "you" (Sum.inl "after") 1 "t1" MessageType.STRING [] none [] none

/-- An EDIT of the top-level message "t1". -/
def c8EditMsg : LMsg :=
  .mk "me" "you" (Sum.inr c8Replacement) 9 "e1" MessageType.EDIT [] none [] none

/-- A nest chat with two messages "a" (older) and "b" (newest). -/
def c9Chat : ChatEnt :=
  { chatId := "c9", name := "c9", contacts := [],
    messages :=
      [{ id := "a", mfrom := "x", mto := "y", body := "first", timeStamp := 1,
         mtype := MessageType.STRING, subject := none, signatures := [] },
       { id := "b", mfrom := "x", mto := "y", body := "second", timeStamp := 2,
         mtype := MessageType.STRING, subject := none, signatures := [] }],
    acceptedChat := true, adminId := "x", read := [], isGroup := false, draft := [] }

/-- Node state holding the pagination chat. -/
def c9St : NodeState := { emptyNode "me" with chats := [c9Chat] }

/-- The pagination rule as the spec words it, for comparison with the
implementation: offset mode takes precedence whenever `page` is supplied
(non-null), cursor mode applies when only `from` is supplied. -/
def getChatMessagesSpecRule (st : NodeState) (chatId : String) (fromId : Option String)
    (page : Option Int) (limit : Int) : Except JsError PageResult :=
  match getChat st chatId with
  | none => .error .typeError
  | some chat =>
    let msgs := chat.messages
    let len : Int := msgs.length
    let e : Int :=
      match page with
      | some p => len - p * limit
      | none =>
        match fromId with
        | some f => jsFindIndex (fun m => m.id == f) msgs
        | none => len
    let start := e - limit
    .ok { hasMore := start ≠ 0, messages := jsSlice msgs start e }

/-- A chat whose admin is "admin", stored under the id derived for mallory → me. -/
def c5Chat : ChatEnt :=
  { chatId := "mallory-me", name := "g", contacts := [], messages := [],
    acceptedChat := true, adminId := "admin", read := [], isGroup := true, draft := [] }

/-- Node state holding the admin-guarded chat. -/
def c5St : NodeState := { emptyNode "me" with chats := [c5Chat] }

/-- A SYSTEM message from "mallory", who is not the chat's admin. -/
def c5Msg : Msg :=
  { id := "sys1", mfrom := "mallory", mto := "me", body := "evil",
    timeStamp := 3, mtype := MessageType.SYSTEM, subject := none, signatures := [] }

/-! Theorems. -/

/-- C1: the sign/verify round trip fails at index 0.  A signature chain built by
`appendSignatureToMessage` (alice signs the empty-signature message, carol signs
on top) verifies correctly at index 1 (alice's signature on the two-signature
message) and detects a tampered body there; but verification of the MOST RECENT
signature — index 0, alice's signature on the once-signed message, and likewise
carol's on the twice-signed message — returns false with the correct public key
cached, because `if (!signatureIdx) return false` treats index 0 as falsy.  This
contradicts the claim (and the spec's "an index of 0 verifies the most recent
signer"): the guard was meant to catch `findIndex`'s -1. -/
theorem c1_signature_chain_index_zero_rejected :
    appendSignatureToMessage aliceNode c1Msg0 = .ok (some c1Msg1) ∧
    appendSignatureToMessage carolNode c1Msg1 = .ok (some c1Msg2) ∧
    verifyMessageSignature bobNode aliceContact c1Msg2 c1Sig1 = .ok (true, bobNode) ∧
    verifyMessageSignature bobNode aliceContact { c1Msg2 with body := "tampered" } c1Sig1 =
      .ok (false, bobNode) ∧
    verifyMessageSignature bobNode aliceContact c1Msg1 c1Sig1 = .ok (false, bobNode) ∧
    verifyMessageSignature bobNode carolContact c1Msg2 c1Sig2 = .ok (false, bobNode) :=
  ⟨rfl, rfl, rfl, rfl, rfl, rfl⟩

/-- C2 (amended): a sender appearing in the page of blocked contacts the handler
fetches is rejected with the Blocked error, for every message (including
CONTACT_REQUEST) and every state; the rejection happens before the chat lookup
and before dispatch, and the error return carries no state, so no store write —
in particular no chat creation — occurs. -/
theorem c2_blocked_page_sender_rejected (st : NodeState) (message : Msg)
    (offset count : Nat)
    (h : (getBlockedContactList st offset count).any
      (fun c => c.id == message.mfrom) = true) :
    handleIncomingMessage st message offset count = .error .blocked := by
  have hsome : ((getBlockedContactList st offset count).find?
      (fun c => c.id == message.mfrom)).isSome = true := by
    rw [List.find?_isSome]
    exact List.any_eq_true.mp h
  unfold handleIncomingMessage
  simp [hsome]

/-- Witness for `c2_blocked_page_sender_rejected`: "eve" is blocked, her contact
request is rejected with Blocked. -/
theorem c2_blocked_page_sender_rejected_witness :
    handleIncomingMessage c2StW c2MsgW 0 25 = .error .blocked :=
  c2_blocked_page_sender_rejected c2StW c2MsgW 0 25 rfl

/-- C2 counterexample: "blocked25" is in the blocked-contact set (the 26th
entry), yet with the default page (offset 0, count 25) the handler does not
reject the message as Blocked — it walks on to the chat lookup, which here
throws a TypeError on the missing chat. -/
theorem c2_blocked_contact_beyond_page_admitted :
    c2St.blockedContacts.any (fun c => c.id == c2Msg.mfrom) = true ∧
    handleIncomingMessage c2St c2Msg 0 25 = .error .typeError :=
  ⟨rfl, rfl⟩

/-- C4 failing evaluation (nest `handleMessageRead`) next to the behaviour the
claim describes (legacy `handleRead`).  Nest: the chat's `read` array holds the
sender id "alice"; receipt R1 (target "a", timestamp 10) succeeds but overwrites
that slot with the message id "a", so receipt R2 (target "b", timestamp 20 — the
later target) finds no entry for "alice" (`indexOf` is -1), is dropped without
saving, and the final cursor stays "a": the cursor does not name the
later-timestamped target.  Legacy: both arrival orders end with the cursor on
"b", exactly as the claim states. -/
theorem c4_nest_read_cursor_drops_second_receipt :
    handleMessageRead c4St c4Read1 = .ok (some c4St2) ∧
    handleMessageRead c4St2 c4Read2 = .ok none ∧
    (getChat c4St2 "alice-me").map (fun c => c.read) = some ["a"] ∧
    handleRead [c4LChat] c4LRead1 = .ok c4LChatsA ∧
    handleRead c4LChatsA c4LRead2 = .ok c4LChatsB ∧
    handleRead [c4LChat] c4LRead2 = .ok c4LChatsB ∧
    handleRead c4LChatsB c4LRead1 = .ok c4LChatsB :=
  ⟨rfl, rfl, rfl, rfl, rfl, rfl, rfl⟩

/-- C5: a SYSTEM message from a sender other than the target chat's admin is
rejected with the Unauthorized error (`ForbiddenException('not allowed')`); the
check sits between chat resolution and every mutating step (group fan-out and
handler dispatch), and the error return carries no state, so the chat's
messages, contacts, read cursors and metadata are untouched.  Hence only SYSTEM
messages from the admin reach dispatch. -/
theorem c5_system_non_admin_unauthorized (st : NodeState) (message : Msg)
    (offset count : Nat) (chat : ChatEnt)
    (hb : (getBlockedContactList st offset count).all
      (fun c => c.id != message.mfrom) = true)
    (hc : getChat st (determineChatID message) = some chat)
    (ht : message.mtype = MessageType.SYSTEM)
    (ha : chat.adminId ≠ message.mfrom) :
    handleIncomingMessage st message offset count = .error .notAllowed := by
  have hnone : (getBlockedContactList st offset count).find?
      (fun c => c.id == message.mfrom) = none := by
    rw [List.find?_eq_none]
    intro x hx
    have := List.all_eq_true.mp hb x hx
    simp only [bne_iff_ne, ne_eq, beq_iff_eq] at this ⊢
    exact this
  unfold handleIncomingMessage
  simp [hnone, hc, ht, ha]

/-- Witness for `c5_system_non_admin_unauthorized`: mallory's SYSTEM message to a
chat administered by "admin" is rejected. -/
theorem c5_system_non_admin_unauthorized_witness :
    handleIncomingMessage c5St c5Msg 0 25 = .error .notAllowed :=
  c5_system_non_admin_unauthorized c5St c5Msg 0 25 c5Chat rfl rfl rfl (by decide)

/-- C6 (amended): signing with no private-key record at all throws a TypeError
(destructuring the `null` lookup), not a typed NoPrivateKeyError; signing with a
present private-key record whose key material is empty (falsy) silently returns
nothing — `if (!key) return;` — so the message is left unsigned with no error
surfaced to the caller. -/
theorem c6_missing_key_behaviour (st : NodeState) (message : Msg) :
    (getKey st KeyType.Private = none →
      appendSignatureToMessage st message = .error .typeError) ∧
    (∀ k, getKey st KeyType.Private = some k → k.key = "" →
      appendSignatureToMessage st message = .ok none) := by
  constructor
  · intro h
    unfold appendSignatureToMessage
    rw [h]
  · intro k h hk
    unfold appendSignatureToMessage
    rw [h]
    simp [hk]

/-- Witness for `c6_missing_key_behaviour`: both branches at concrete states. -/
theorem c6_missing_key_behaviour_witness :
    appendSignatureToMessage c6NoKeyNode c6Msg = .error .typeError ∧
    appendSignatureToMessage c6EmptyKeyNode c6Msg = .ok none :=
  ⟨(c6_missing_key_behaviour c6NoKeyNode c6Msg).1 rfl,
   (c6_missing_key_behaviour c6EmptyKeyNode c6Msg).2
     { userId := "me", key := "", keyType := KeyType.Private } rfl rfl⟩

/-- C6 counterexample: with a private-key record present but empty, signing
returns `undefined` — no error of any kind, no NoPrivateKeyError — the silent
no-op the claim rules out. -/
theorem c6_empty_key_silent_noop :
    appendSignatureToMessage c6EmptyKeyNode c6Msg = .ok none := rfl

/-- C3 counterexample (the spec §8 scenario): admin m0's node receives m1's
correctly signed PLAIN group message while delivery to m2's location fails.
`Promise.all` rejects on the failed branch, `handleGroupAdmin` re-throws, and
`handleIncomingMessage` aborts with the transport error: the exception aborts
the admin-side commit, nothing is appended to chat.messages, and no failure is
recorded anywhere. -/
theorem c3_failed_delivery_aborts_admin_commit :
    handleIncomingMessage c3AdminNode c3Msg 0 25 = .error (.transport "locM2") := rfl

/-- C7 counterexample: a DELETE (no subject) whose own id "zz" matches no stored
message makes `chat.messages[-1].body = ...` throw a TypeError — the absent
target is not a silent no-op on this path. -/
theorem c7_delete_absent_target_throws :
    editMessage c7Chats "chat1" c7DeleteMiss 0 = .error .typeError := rfl

/-- C9 counterexample: with `page = 0` and `from = "b"` both supplied, the
implementation honours the cursor (`if (page)` is a JavaScript truthiness test,
so page 0 falls through) and returns the message before "b", while the claimed
offset-precedence rule would return page 0 counting back from the newest —
the two named results differ. -/
theorem c9_page_zero_cursor_precedence :
    getChatMessages c9St "c9" (some "b") (some 0) 1 =
      .ok { hasMore := false,
            messages := [{ id := "a", mfrom := "x", mto := "y", body := "first",
                           timeStamp := 1, mtype := MessageType.STRING,
                           subject := none, signatures := [] }] } ∧
    getChatMessagesSpecRule c9St "c9" (some "b") (some 0) 1 =
      .ok { hasMore := true,
            messages := [{ id := "b", mfrom := "x", mto := "y", body := "second",
                           timeStamp := 2, mtype := MessageType.STRING,
                           subject := none, signatures := [] }] } :=
  ⟨rfl, rfl⟩

/-- C10: the socket handler overwrites `message.from` with the locally configured
userId before signing, so two client payloads that differ only in their `from`
field produce identical outcomes — the same signed message, the same emitted
events, and the same chat mutation. -/
theorem c10_sender_overwritten_before_signing (st : NodeState) (message : Msg)
    (f1 f2 : String) :
    gatewayHandleIncomingMessage st { message with mfrom := f1 } =
    gatewayHandleIncomingMessage st { message with mfrom := f2 } := by
  cases message
  rfl

/-- Every branch of a fan-out whose deliveries all resolve resolves. -/
theorem promiseAll_ok {α : Type} (f : α → Except JsError Unit) (l : List α)
    (h : ∀ x ∈ l, f x = .ok ()) : promiseAll (l.map f) = .ok () := by
  induction l with
  | nil => rfl
  | cons x xs ih =>
    simp only [List.map_cons]
    rw [h x (List.mem_cons_self x xs)]
    exact ih (fun y hy => h y (List.mem_cons_of_mem x hy))

/-- A fan-out containing a rejected branch rejects. -/
theorem promiseAll_mem_error {α : Type} (f : α → Except JsError Unit) (l : List α)
    (x : α) (hx : x ∈ l) (e : JsError) (he : f x = .error e) :
    ∃ d, promiseAll (l.map f) = .error d := by
  induction l with
  | nil => cases hx
  | cons y ys ih =>
    simp only [List.map_cons]
    rcases List.mem_cons.mp hx with h | h
    · subst h
      rw [he]
      exact ⟨e, rfl⟩
    · cases hfy : f y with
      | ok u =>
        cases u
        exact ih h
      | error d =>
        exact ⟨d, rfl⟩

/-- C3 (amended): group-admin fan-out.  With a valid sender signature and a
usable private key, (1) when every delivery succeeds, `handleGroupAdmin`
resolves after forwarding the node-signed message to every chat contact except
the local user — the attempt list is exactly the receiving contacts' locations;
(2) a single failing recipient makes `handleGroupAdmin` reject (nothing records
the failure); and (3) in the controller that rejection aborts
`handleIncomingMessage` before dispatch, so the admin's own copy is never
appended and the error return carries no state. -/
theorem c3_group_fanout_failure_propagates (st : NodeState) (chat : ChatEnt) (message : Msg)
    (k : Key) (hk : getKey st KeyType.Private = some k) (hkk : ¬ k.key = "")
    (hsig : verifySignedMessage st
      (chat.contacts.find? (fun c => c.id == message.mfrom)) message = true) :
    ((∀ c ∈ chat.contacts, c.id ≠ st.userId → c.location ∉ st.failingLocations) →
      handleGroupAdmin st chat message =
        .ok ({ message with
                 signatures := createBase64Signature message k.key :: message.signatures },
             (chat.contacts.filter (fun c => c.id != st.userId)).map (fun c => c.location))) ∧
    ((∃ c ∈ chat.contacts, c.id ≠ st.userId ∧ c.location ∈ st.failingLocations) →
      ∃ e, handleGroupAdmin st chat message = .error e) ∧
    (∀ offset count,
      (getBlockedContactList st offset count).all (fun c => c.id != message.mfrom) = true →
      getChat st (determineChatID message) = some chat →
      chat.isGroup = true → chat.adminId = st.userId →
      message.mtype ≠ MessageType.SYSTEM →
      (∃ c ∈ chat.contacts, c.id ≠ st.userId ∧ c.location ∈ st.failingLocations) →
      ∃ e, handleIncomingMessage st message offset count = .error e) := by
  have herr : (∃ c ∈ chat.contacts, c.id ≠ st.userId ∧ c.location ∈ st.failingLocations) →
      ∃ e, handleGroupAdmin st chat message = .error e := by
    rintro ⟨c, hmem, hne, hfl⟩
    have hmemf : c ∈ chat.contacts.filter (fun c => c.id != st.userId) :=
      List.mem_filter.mpr ⟨hmem, by simpa [bne_iff_ne] using hne⟩
    have hsend : sendMessageToApi st c.location = .error (.transport c.location) := by
      unfold sendMessageToApi
      rw [if_pos]
      exact List.elem_iff.mpr hfl
    obtain ⟨d, hd⟩ := promiseAll_mem_error (fun c => sendMessageToApi st c.location)
      (chat.contacts.filter (fun c => c.id != st.userId)) c hmemf _ hsend
    have hsign : appendSignatureToMessage st message =
        .ok (some { message with
          signatures := createBase64Signature message k.key :: message.signatures }) := by
      unfold appendSignatureToMessage
      rw [hk]
      simp [hkk]
    refine ⟨d, ?_⟩
    simp [handleGroupAdmin, hsig, hsign, hd]
  refine ⟨?_, herr, ?_⟩
  · intro hok
    have hAll : promiseAll ((chat.contacts.filter (fun c => c.id != st.userId)).map
        (fun c => sendMessageToApi st c.location)) = .ok () := by
      apply promiseAll_ok
      intro c hc
      obtain ⟨hmem, hne⟩ := List.mem_filter.mp hc
      have hnm : c.location ∉ st.failingLocations :=
        hok c hmem (by simpa [bne_iff_ne] using hne)
      unfold sendMessageToApi
      rw [if_neg]
      intro hcon
      exact hnm (List.elem_iff.mp hcon)
    have hsign : appendSignatureToMessage st message =
        .ok (some { message with
          signatures := createBase64Signature message k.key :: message.signatures }) := by
      unfold appendSignatureToMessage
      rw [hk]
      simp [hkk]
    simp [handleGroupAdmin, hsig, hsign, hAll]
  · intro offset count hb hc hg ha hsys hfail
    obtain ⟨e, he⟩ := herr hfail
    have hnone : (getBlockedContactList st offset count).find?
        (fun c => c.id == message.mfrom) = none := by
      rw [List.find?_eq_none]
      intro x hx
      have := List.all_eq_true.mp hb x hx
      simp only [bne_iff_ne, ne_eq, beq_iff_eq] at this ⊢
      exact this
    refine ⟨e, ?_⟩
    simp [handleIncomingMessage, hnone, hc, hsys, hg, ha, he, Except.map]

/-- Witness for `c3_group_fanout_failure_propagates`: the spec §8 group scenario
with all deliveries succeeding, and with m2's delivery failing. -/
theorem c3_group_fanout_failure_propagates_witness :
    handleGroupAdmin c3AdminNodeOk c3Chat c3Msg =
      .ok ({ c3Msg with signatures := createBase64Signature c3Msg "skM0" :: c3Msg.signatures },
           ["locM1", "locM2"]) ∧
    (∃ e, handleGroupAdmin c3AdminNode c3Chat c3Msg = .error e) := by
  constructor
  · exact (c3_group_fanout_failure_propagates c3AdminNodeOk c3Chat c3Msg
      { userId := "m0", key := "skM0", keyType := KeyType.Private } rfl (by decide) rfl).1
      (by decide)
  · exact (c3_group_fanout_failure_propagates c3AdminNode c3Chat c3Msg
      { userId := "m0", key := "skM0", keyType := KeyType.Private } rfl (by decide) rfl).2.1
      ⟨{ id := "m2", location := "locM2" }, by decide, by decide, by decide⟩

/-- `findIndex` over a list none of whose elements match is -1. -/
theorem jsFindIndex_neg_one {α : Type} (p : α → Bool) (l : List α)
    (h : ∀ x ∈ l, p x = false) : jsFindIndex p l = -1 := by
  unfold jsFindIndex
  rw [List.findIdx?_eq_none_iff.mpr h]

/-- `findIndex` agrees with `findIdx?` on found elements. -/
theorem jsFindIndex_of_findIdx? {α : Type} {p : α → Bool} {l : List α} {n : Nat}
    (h : l.findIdx? p = some n) : jsFindIndex p l = (n : Int) := by
  unfold jsFindIndex
  rw [h]

/-- Writing the resolved chat back unchanged leaves a store with unique chat ids
unchanged. -/
theorem persistChat_found_self (chats : List LChat) (chatId : String) (chat : LChat)
    (hc : getChatLegacy chats chatId = some chat)
    (hu : chats.Pairwise (fun a b => a.chatId ≠ b.chatId)) :
    persistChat chats chat = chats := by
  induction chats with
  | nil => rfl
  | cons c cs ih =>
    unfold getChatLegacy at hc
    unfold persistChat
    rw [List.map_cons]
    by_cases hpc : (c.chatId == chatId) = true
    · simp only [List.find?_cons, hpc] at hc
      have hce : c = chat := by injection hc
      subst hce
      have hhead : (c.chatId == c.chatId) = true := by simp
      rw [if_pos hhead]
      have htail : ∀ x ∈ cs, (if x.chatId == c.chatId then c else x) = x := by
        intro x hx
        have hne : c.chatId ≠ x.chatId := (List.pairwise_cons.mp hu).1 x hx
        rw [if_neg]
        simp only [beq_iff_eq]
        exact fun hxx => hne hxx.symm
      rw [List.map_congr_left htail]
      simp
    · simp only [List.find?_cons, Bool.eq_false_iff.mpr hpc] at hc
      have hchat : (chat.chatId == chatId) = true :=
        @List.find?_some LChat (fun c => c.chatId == chatId) chat cs hc
      have hcc : ¬ (c.chatId == chat.chatId) = true := by
        simp only [beq_iff_eq] at hchat hpc ⊢
        simp only [hchat]
        exact hpc
      rw [if_neg hcc]
      have := ih hc (hu.of_cons)
      unfold persistChat at this
      rw [this]

/-- C7 (amended): with the resolved chat in a store of unique chat ids,
(1) an edit routed to the reply path whose subject matches no stored message is a
silent no-op; (2) so is one whose parent exists but whose own id matches no reply
of that parent; (3) a top-level EDIT whose replacement id matches no stored
message raises no error and leaves the chat unchanged (the element write at
index -1 is an invisible property); but (4) a top-level DELETE whose id matches
no stored message throws a TypeError. -/
theorem c7_absent_target_noop_except_delete (chats : List LChat) (chatId : String)
    (m : LMsg) (now : Int) (chat : LChat)
    (hc : getChatLegacy chats chatId = some chat)
    (hu : chats.Pairwise (fun a b => a.chatId ≠ b.chatId)) :
    ((∃ s, m.subject = some s ∧ s ≠ "" ∧ ∀ mes ∈ chat.messages, mes.id ≠ s) →
      editMessage chats chatId m now = .ok chats) ∧
    (∀ s mi parent, m.subject = some s → s ≠ "" →
      chat.messages.findIdx? (fun mes => m.subject == some mes.id) = some mi →
      chat.messages.get? mi = some parent →
      (∀ r ∈ parent.replies, r.id ≠ m.id) →
      editMessage chats chatId m now = .ok chats) ∧
    (m.subject = none → m.mtype = MessageType.EDIT →
      (∀ raw, m.body = Sum.inr raw →
        ∀ mes ∈ chat.messages, mes.id ≠ (parseMessage raw).id) →
      editMessage chats chatId m now = .ok chats) ∧
    (m.subject = none → m.mtype = MessageType.DELETE →
      (∀ mes ∈ chat.messages, mes.id ≠ m.id) →
      editMessage chats chatId m now = .error .typeError) := by
  refine ⟨?_, ?_, ?_, ?_⟩
  · rintro ⟨s, hsub, hs, habs⟩
    have hidx : jsFindIndex (fun mes => m.subject == some mes.id) chat.messages = -1 := by
      apply jsFindIndex_neg_one
      intro mes hmes
      rw [hsub]
      exact beq_eq_false_iff_ne.mpr (by simpa using fun h => habs mes hmes h.symm)
    have hbne : (s != "") = true := bne_iff_ne.mpr hs
    have hreply : editReply chats chatId m now = .ok chats := by
      unfold editReply
      simp only [hc, hidx]
      norm_num
    unfold editMessage
    simp only [hsub]
    rw [if_pos hbne]
    exact hreply
  · intro s mi parent hsub hs hfi hp hr
    have hidx : jsFindIndex (fun mes => m.subject == some mes.id) chat.messages = (mi : Int) :=
      jsFindIndex_of_findIdx? hfi
    have hridx : jsFindIndex (fun r => r.id == m.id) parent.replies = -1 := by
      apply jsFindIndex_neg_one
      intro r hrr
      exact beq_eq_false_iff_ne.mpr (hr r hrr)
    have hbne : (s != "") = true := bne_iff_ne.mpr hs
    have hreply : editReply chats chatId m now = .ok chats := by
      unfold editReply
      simp only [hc, hidx]
      rw [if_neg (by omega)]
      simp only [Int.toNat_natCast, hp, hridx]
      norm_num
    unfold editMessage
    simp only [hsub]
    rw [if_pos hbne]
    exact hreply
  · intro hsub htype hbody
    unfold editMessage
    simp only [hsub]
    rw [if_neg (by simp)]
    simp only [hc, htype]
    cases hb : m.body with
    | inl s =>
      rw [persistChat_found_self chats chatId chat hc hu]
    | inr raw =>
      have hidx : jsFindIndex (fun mes => mes.id == (parseMessage raw).id) chat.messages = -1 := by
        apply jsFindIndex_neg_one
        intro mes hmes
        exact beq_eq_false_iff_ne.mpr (hbody raw hb mes hmes)
      simp only [hidx]
      unfold jsArraySet
      rw [if_neg (by omega)]
      show (Except.ok (persistChat chats chat) : Except JsError (List LChat)) = Except.ok chats
      rw [persistChat_found_self chats chatId chat hc hu]
  · intro hsub htype habs
    have hidx : jsFindIndex (fun mes => mes.id == m.id) chat.messages = -1 := by
      apply jsFindIndex_neg_one
      intro mes hmes
      exact beq_eq_false_iff_ne.mpr (habs mes hmes)
    unfold editMessage
    simp only [hsub]
    rw [if_neg (by simp)]
    simp only [hc, htype, hidx]
    norm_num

/-- Witness for `c7_absent_target_noop_except_delete`: the three silent no-op
branches evaluated on the concrete chat. -/
theorem c7_absent_target_noop_except_delete_witness :
    editMessage c7Chats "chat1" c7EditParentMiss 5 = .ok c7Chats ∧
    editMessage c7Chats "chat1" c7EditReplyMiss 6 = .ok c7Chats ∧
    editMessage c7Chats "chat1" c7EditTopMiss 7 = .ok c7Chats := by
  refine ⟨?_, ?_, ?_⟩
  · exact (c7_absent_target_noop_except_delete c7Chats "chat1" c7EditParentMiss 5 c7Chat
      rfl (by simp [c7Chats])).1 ⟨"nope", rfl, by decide, by decide⟩
  · exact (c7_absent_target_noop_except_delete c7Chats "chat1" c7EditReplyMiss 6 c7Chat
      rfl (by simp [c7Chats])).2.1 "m1" 0 c7M1 rfl (by decide) rfl rfl (by decide)
  · refine (c7_absent_target_noop_except_delete c7Chats "chat1" c7EditTopMiss 7 c7Chat
      rfl (by simp [c7Chats])).2.2.1 rfl rfl ?_
    intro raw hraw
    have h : c7MissingReplacement = raw := by
      have h2 : (Sum.inr c7MissingReplacement : Sum String LMsg) = Sum.inr raw := hraw
      injection h2
    subst h
    decide

/-- A found index is within bounds. -/
theorem findIdx?_lt_length {α : Type} {p : α → Bool} :
    ∀ {l : List α} {n : Nat}, l.findIdx? p = some n → n < l.length := by
  intro l
  induction l with
  | nil => intro n h; simp at h
  | cons x xs ih =>
    intro n h
    rw [List.findIdx?_cons] at h
    by_cases hx : p x = true
    · rw [if_pos hx] at h
      injection h with h
      subst h
      simp
    · rw [if_neg hx, List.findIdx?_succ] at h
      cases hfx : xs.findIdx? p with
      | none => rw [hfx] at h; simp at h
      | some m =>
        rw [hfx] at h
        simp only [Option.map_some'] at h
        injection h with h
        subst h
        have := ih hfx
        simp only [List.length_cons]
        omega

/-- The element at a found index satisfies the predicate. -/
theorem findIdx?_found_elem {α : Type} {p : α → Bool} :
    ∀ {l : List α} {n : Nat}, l.findIdx? p = some n →
      ∀ {x : α}, l.get? n = some x → p x = true := by
  intro l
  induction l with
  | nil => intro n h; simp at h
  | cons y xs ih =>
    intro n h x hx
    rw [List.findIdx?_cons] at h
    by_cases hy : p y = true
    · rw [if_pos hy] at h
      injection h with h
      subst h
      simp only [List.get?_cons_zero] at hx
      injection hx with hx
      subst hx
      exact hy
    · rw [if_neg hy, List.findIdx?_succ] at h
      cases hfx : xs.findIdx? p with
      | none => rw [hfx] at h; simp at h
      | some m =>
        rw [hfx] at h
        simp only [Option.map_some'] at h
        injection h with h
        subst h
        simp only [List.get?_cons_succ] at hx
        exact ih hfx hx

/-- Replacing the first matching element with another matching value keeps the
found index. -/
theorem findIdx?_set_of_found {α : Type} {p : α → Bool} :
    ∀ {l : List α} {n : Nat} {v : α}, l.findIdx? p = some n → p v = true →
      (l.set n v).findIdx? p = some n := by
  intro l
  induction l with
  | nil => intro n v h _; simp at h
  | cons x xs ih =>
    intro n v h hv
    rw [List.findIdx?_cons] at h
    by_cases hx : p x = true
    · rw [if_pos hx] at h
      injection h with h
      subst h
      simp only [List.set_cons_zero]
      rw [List.findIdx?_cons, if_pos hv]
    · rw [if_neg hx, List.findIdx?_succ] at h
      cases hfx : xs.findIdx? p with
      | none => rw [hfx] at h; simp at h
      | some m =>
        rw [hfx] at h
        simp only [Option.map_some'] at h
        injection h with h
        subst h
        simp only [List.set_cons_succ]
        rw [List.findIdx?_cons, if_neg hx, List.findIdx?_succ, ih hfx hv]
        rfl

/-- Writing a chat back makes it the resolved chat for its id. -/
theorem getChatLegacy_persist (chats : List LChat) (cid : String) (chat c : LChat)
    (hc : getChatLegacy chats cid = some chat) (hid : c.chatId = chat.chatId) :
    getChatLegacy (persistChat chats c) cid = some c := by
  have hcid : (chat.chatId == cid) = true :=
    @List.find?_some LChat (fun x => x.chatId == cid) chat chats hc
  induction chats with
  | nil => simp [getChatLegacy] at hc
  | cons d ds ih =>
    unfold getChatLegacy at hc ⊢
    unfold persistChat
    rw [List.map_cons]
    by_cases hd : (d.chatId == cid) = true
    · simp only [List.find?_cons, hd] at hc
      have hde : d = chat := by injection hc
      subst hde
      have hdc : (d.chatId == c.chatId) = true := by
        simp only [beq_iff_eq] at hd ⊢
        exact hid.symm
      rw [if_pos hdc]
      have hcc : (c.chatId == cid) = true := by
        simp only [beq_iff_eq] at hd hcid ⊢
        rw [hid]
        exact hcid
      simp [List.find?_cons, hcc]
    · simp only [List.find?_cons, Bool.eq_false_iff.mpr hd] at hc
      have hdc : ¬ (d.chatId == c.chatId) = true := by
        simp only [beq_iff_eq] at hd hcid ⊢
        rw [hid]
        intro hdd
        exact hd (hdd.trans hcid)
      rw [if_neg hdc]
      simp only [List.find?_cons, Bool.eq_false_iff.mpr hd]
      exact ih hc

/-- Writing the same chat back twice equals writing it once. -/
theorem persistChat_persistChat (chats : List LChat) (c : LChat) :
    persistChat (persistChat chats c) c = persistChat chats c := by
  unfold persistChat
  rw [List.map_map]
  apply List.map_congr_left
  intro x _
  by_cases hx : (x.chatId == c.chatId) = true
  · simp [Function.comp, hx]
  · simp [Function.comp, hx]

/-- `setBody` preserves the id. -/
theorem LMsg.id_setBody (m : LMsg) (v : Sum String LMsg) : (m.setBody v).id = m.id := by
  cases m
  rfl

/-- `setUpdated` preserves the id. -/
theorem LMsg.id_setUpdated (m : LMsg) (v : Option Int) : (m.setUpdated v).id = m.id := by
  cases m
  rfl

/-- `setReplies` preserves the id. -/
theorem LMsg.id_setReplies (m : LMsg) (v : List LMsg) : (m.setReplies v).id = m.id := by
  cases m
  rfl

/-- `setReplies` installs its argument. -/
theorem LMsg.replies_setReplies (m : LMsg) (v : List LMsg) : (m.setReplies v).replies = v := by
  cases m
  rfl

/-- Re-installing a message's own replies is the identity. -/
theorem LMsg.setReplies_replies (m : LMsg) : m.setReplies m.replies = m := by
  cases m
  rfl

/-- Consecutive `setReplies` writes keep only the last. -/
theorem LMsg.setReplies_setReplies (m : LMsg) (a b : List LMsg) :
    (m.setReplies a).setReplies b = m.setReplies b := by
  cases m
  rfl

/-- Applying the same body/updated edit twice equals applying it once. -/
theorem LMsg.edit_collapse (m : LMsg) (b : Sum String LMsg) (u : Option Int) :
    (((m.setBody b).setUpdated u).setBody b).setUpdated u = (m.setBody b).setUpdated u := by
  cases m
  rfl

/-- Closed form of editMessage for a top-level EDIT whose target is found. -/
theorem editMessage_top_edit_found (chats : List LChat) (chatId : String) (m : LMsg)
    (now : Int) (chat : LChat) (raw : LMsg) (i : Nat)
    (hc : getChatLegacy chats chatId = some chat)
    (hsub : m.subject = none)
    (htype : m.mtype = MessageType.EDIT)
    (hb : m.body = Sum.inr raw)
    (hfi : chat.messages.findIdx? (fun mes => mes.id == (parseMessage raw).id) = some i) :
    editMessage chats chatId m now =
      .ok (persistChat chats
        { chat with messages := chat.messages.set i (parseMessage raw) }) := by
  have hlt : i < chat.messages.length := findIdx?_lt_length hfi
  have hidx : jsFindIndex (fun mes => mes.id == (parseMessage raw).id) chat.messages = (i : Int) :=
    jsFindIndex_of_findIdx? hfi
  unfold editMessage
  simp only [hsub]
  rw [if_neg (by simp)]
  simp only [hc, htype, hb, hidx]
  unfold jsArraySet
  rw [if_pos ⟨by omega, by exact_mod_cast hlt⟩]
  rw [Int.toNat_natCast]

/-- Closed form of editReply when parent and reply are both found. -/
theorem editReply_found (chats : List LChat) (chatId : String) (m : LMsg) (now : Int)
    (chat : LChat) (parent reply : LMsg) (mi ri : Nat)
    (hc : getChatLegacy chats chatId = some chat)
    (hfi : chat.messages.findIdx? (fun mes => m.subject == some mes.id) = some mi)
    (hp : chat.messages.get? mi = some parent)
    (hri : parent.replies.findIdx? (fun r => r.id == m.id) = some ri)
    (hrp : parent.replies.get? ri = some reply) :
    editReply chats chatId m now =
      .ok (persistChat chats
        { chat with messages := (chat.messages.set mi
            (parent.setReplies (parent.replies.set ri
              ((reply.setBody m.body).setUpdated (some now))))) }) := by
  have hidx : jsFindIndex (fun mes => m.subject == some mes.id) chat.messages = (mi : Int) :=
    jsFindIndex_of_findIdx? hfi
  have hridx : jsFindIndex (fun r => r.id == m.id) parent.replies = (ri : Int) :=
    jsFindIndex_of_findIdx? hri
  unfold editReply
  simp only [hc, hidx]
  rw [if_neg (by omega)]
  simp only [Int.toNat_natCast, hp, hridx]
  rw [if_neg (by omega)]
  simp only [Int.toNat_natCast, hrp]

/-- C8: EDIT idempotence.  Applying the same EDIT message twice (second
application immediately after the first, so the `new Date()` stamp `now` of the
reply path is the same) yields the same chat store as applying it once, both for
a top-level EDIT whose replacement's target id is found and for a reply-path
EDIT whose parent and reply are found. -/
theorem c8_edit_idempotent (chats : List LChat) (chatId : String) (m : LMsg) (now : Int)
    (chat : LChat)
    (hc : getChatLegacy chats chatId = some chat)
    (htype : m.mtype = MessageType.EDIT) :
    ((m.subject = none →
      (∀ raw, m.body = Sum.inr raw →
        ∃ i, chat.messages.findIdx? (fun mes => mes.id == (parseMessage raw).id) = some i) →
      (editMessage chats chatId m now).bind (fun cs => editMessage cs chatId m now) =
        editMessage chats chatId m now)) ∧
    (∀ s mi ri parent reply, m.subject = some s → s ≠ "" →
      chat.messages.findIdx? (fun mes => m.subject == some mes.id) = some mi →
      chat.messages.get? mi = some parent →
      parent.replies.findIdx? (fun r => r.id == m.id) = some ri →
      parent.replies.get? ri = some reply →
      (editMessage chats chatId m now).bind (fun cs => editMessage cs chatId m now) =
        editMessage chats chatId m now) := by
  constructor
  · intro hsub hfound
    cases hb : m.body with
    | inl s =>
      have h1 : editMessage chats chatId m now = .ok (persistChat chats chat) := by
        unfold editMessage
        simp only [hsub]
        rw [if_neg (by simp)]
        simp only [hc, htype, hb]
      have hc2 : getChatLegacy (persistChat chats chat) chatId = some chat :=
        getChatLegacy_persist chats chatId chat chat hc rfl
      have h2 : editMessage (persistChat chats chat) chatId m now =
          .ok (persistChat (persistChat chats chat) chat) := by
        unfold editMessage
        simp only [hsub]
        rw [if_neg (by simp)]
        simp only [hc2, htype, hb]
      rw [h1]
      show editMessage (persistChat chats chat) chatId m now = .ok (persistChat chats chat)
      rw [h2, persistChat_persistChat]
    | inr raw =>
      obtain ⟨i, hfi⟩ := hfound raw hb
      have h1 := editMessage_top_edit_found chats chatId m now chat raw i hc hsub htype hb hfi
      have hc2 : getChatLegacy
          (persistChat chats { chat with messages := chat.messages.set i (parseMessage raw) })
          chatId = some { chat with messages := chat.messages.set i (parseMessage raw) } :=
        getChatLegacy_persist chats chatId chat _ hc rfl
      have hfi2 : ({ chat with messages := chat.messages.set i (parseMessage raw) } : LChat).messages.findIdx?
          (fun mes => mes.id == (parseMessage raw).id) = some i := by
        show (chat.messages.set i (parseMessage raw)).findIdx? _ = some i
        exact findIdx?_set_of_found hfi (by simp)
      have h2 := editMessage_top_edit_found
        (persistChat chats { chat with messages := chat.messages.set i (parseMessage raw) })
        chatId m now { chat with messages := chat.messages.set i (parseMessage raw) }
        raw i hc2 hsub htype hb hfi2
      rw [h1]
      show editMessage
          (persistChat chats { chat with messages := chat.messages.set i (parseMessage raw) })
          chatId m now =
        .ok (persistChat chats { chat with messages := chat.messages.set i (parseMessage raw) })
      rw [h2]
      have hset : ({ chat with messages := chat.messages.set i (parseMessage raw) } : LChat).messages.set
          i (parseMessage raw) = chat.messages.set i (parseMessage raw) := by
        show (chat.messages.set i (parseMessage raw)).set i (parseMessage raw) = _
        exact List.set_set _ _ _ _
      rw [hset]
      show Except.ok (persistChat
          (persistChat chats { chat with messages := chat.messages.set i (parseMessage raw) })
          { chat with messages := chat.messages.set i (parseMessage raw) }) =
        Except.ok (persistChat chats { chat with messages := chat.messages.set i (parseMessage raw) })
      rw [persistChat_persistChat]
  · intro s mi ri parent reply hsub hs hfi hp hri hrp
    have hbne : (s != "") = true := bne_iff_ne.mpr hs
    have hmlt : mi < chat.messages.length := findIdx?_lt_length hfi
    have hrlt : ri < parent.replies.length := findIdx?_lt_length hri
    have hpe : (fun mes => m.subject == some mes.id) parent = true :=
      findIdx?_found_elem hfi hp
    have hre : (fun r => r.id == m.id) reply = true :=
      findIdx?_found_elem hri hrp
    have hroute : ∀ cs, editMessage cs chatId m now = editReply cs chatId m now := by
      intro cs
      unfold editMessage
      simp only [hsub]
      rw [if_pos hbne]
    have h1 := editReply_found chats chatId m now chat parent reply mi ri hc hfi hp hri hrp
    -- abbreviations for the once-edited pieces
    have hc2 := getChatLegacy_persist chats chatId chat
      { chat with messages := (chat.messages.set mi
          (parent.setReplies (parent.replies.set ri
            ((reply.setBody m.body).setUpdated (some now))))) } hc rfl
    have hfi2 : ({ chat with messages := (chat.messages.set mi
        (parent.setReplies (parent.replies.set ri
          ((reply.setBody m.body).setUpdated (some now))))) } : LChat).messages.findIdx?
        (fun mes => m.subject == some mes.id) = some mi := by
      show (chat.messages.set mi _).findIdx? _ = some mi
      apply findIdx?_set_of_found hfi
      show (m.subject == some (parent.setReplies _).id) = true
      rw [LMsg.id_setReplies]
      exact hpe
    have hp2 : ({ chat with messages := (chat.messages.set mi
        (parent.setReplies (parent.replies.set ri
          ((reply.setBody m.body).setUpdated (some now))))) } : LChat).messages.get? mi =
        some (parent.setReplies (parent.replies.set ri
          ((reply.setBody m.body).setUpdated (some now)))) := by
      show (chat.messages.set mi _).get? mi = _
      exact List.get?_set_eq_of_lt _ hmlt
    have hri2 : (parent.setReplies (parent.replies.set ri
        ((reply.setBody m.body).setUpdated (some now)))).replies.findIdx?
        (fun r => r.id == m.id) = some ri := by
      rw [LMsg.replies_setReplies]
      apply findIdx?_set_of_found hri
      show (((reply.setBody m.body).setUpdated (some now)).id == m.id) = true
      rw [LMsg.id_setUpdated, LMsg.id_setBody]
      exact hre
    have hrp2 : (parent.setReplies (parent.replies.set ri
        ((reply.setBody m.body).setUpdated (some now)))).replies.get? ri =
        some ((reply.setBody m.body).setUpdated (some now)) := by
      rw [LMsg.replies_setReplies]
      exact List.get?_set_eq_of_lt _ hrlt
    have h2 := editReply_found
      (persistChat chats { chat with messages := (chat.messages.set mi
        (parent.setReplies (parent.replies.set ri
          ((reply.setBody m.body).setUpdated (some now))))) })
      chatId m now
      { chat with messages := (chat.messages.set mi
        (parent.setReplies (parent.replies.set ri
          ((reply.setBody m.body).setUpdated (some now))))) }
      (parent.setReplies (parent.replies.set ri
        ((reply.setBody m.body).setUpdated (some now))))
      ((reply.setBody m.body).setUpdated (some now))
      mi ri hc2 hfi2 hp2 hri2 hrp2
    rw [hroute chats, h1]
    show editMessage
        (persistChat chats { chat with messages := (chat.messages.set mi
          (parent.setReplies (parent.replies.set ri
            ((reply.setBody m.body).setUpdated (some now))))) })
        chatId m now =
      .ok (persistChat chats { chat with messages := (chat.messages.set mi
        (parent.setReplies (parent.replies.set ri
          ((reply.setBody m.body).setUpdated (some now))))) })
    rw [hroute, h2]
    rw [LMsg.edit_collapse]
    rw [LMsg.replies_setReplies]
    rw [List.set_set]
    rw [List.set_set]
    rw [LMsg.setReplies_setReplies]
    show Except.ok (persistChat
        (persistChat chats { chat with messages := (chat.messages.set mi
          (parent.setReplies (parent.replies.set ri
            ((reply.setBody m.body).setUpdated (some now))))) })
        { chat with messages := (chat.messages.set mi
          (parent.setReplies (parent.replies.set ri
            ((reply.setBody m.body).setUpdated (some now))))) }) =
      Except.ok (persistChat chats { chat with messages := (chat.messages.set mi
        (parent.setReplies (parent.replies.set ri
          ((reply.setBody m.body).setUpdated (some now))))) })
    rw [persistChat_persistChat]

/-- Witness for `c8_edit_idempotent`: re-editing the stored message "t1" twice
equals editing it once. -/
theorem c8_edit_idempotent_witness :
    (editMessage c8Chats "chat8" c8EditMsg 9).bind
      (fun cs => editMessage cs "chat8" c8EditMsg 9) =
    editMessage c8Chats "chat8" c8EditMsg 9 := by
  refine (c8_edit_idempotent c8Chats "chat8" c8EditMsg 9 c8Chat rfl rfl).1 rfl ?_
  intro raw hraw
  refine ⟨0, ?_⟩
  have h : c8Replacement = raw := by
    have h2 : (Sum.inr c8Replacement : Sum String LMsg) = Sum.inr raw := hraw
    injection h2
  subst h
  rfl

/-- In-range `slice` is drop-inside-take. -/
theorem jsSlice_eq_take_drop {α : Type} (l : List α) (s e : Int)
    (hs : 0 ≤ s) (hse : s ≤ e) (hel : e ≤ (l.length : Int)) :
    jsSlice l s e = (l.take e.toNat).drop s.toNat := by
  unfold jsSlice
  simp only []
  rw [if_neg (by omega : ¬ s < 0), if_neg (by omega : ¬ e < 0)]
  rw [min_eq_left hel, min_eq_left (le_trans hse hel)]

/-- A list splits around its in-range take/drop window. -/
theorem take_drop_decomp {α : Type} (l : List α) (s e : Nat) (hse : s ≤ e)
    (hel : e ≤ l.length) :
    l = l.take s ++ ((l.take e).drop s) ++ l.drop e := by
  have h1 : l.take e = l.take s ++ ((l.take e).drop s) := by
    conv_lhs => rw [← List.take_append_drop s (l.take e)]
    rw [List.take_take, min_eq_left hse]
  calc l = l.take e ++ l.drop e := (List.take_append_drop e l).symm
    _ = (l.take s ++ ((l.take e).drop s)) ++ l.drop e := by rw [← h1]
    _ = l.take s ++ ((l.take e).drop s) ++ l.drop e := by rw [List.append_assoc]

/-- Length of the take/drop window. -/
theorem take_drop_window_length {α : Type} (l : List α) (s e : Nat)
    (hel : e ≤ l.length) : ((l.take e).drop s).length = e - s := by
  rw [List.length_drop, List.length_take]
  omega

/-- C9 (amended): pagination honours at most one mode per call.  (1) With a
truthy (non-zero) `page`, the `from` cursor is ignored entirely.  (2) With page
p > 0 and enough messages, the result is the p-th block of `limit` messages
counting back from the newest: the log splits as `pre ++ result ++ suf` with
exactly `p * limit` newer messages after the window and the window of length
`limit`.  (3) With `page` absent or 0 (falsy) and a truthy `from` naming the
message at index i, the result is the `limit` messages strictly before (older
than) that message, which itself sits at the head of the remainder and is
excluded. -/
theorem c9_pagination_modes (st : NodeState) (chatId : String) (chat : ChatEnt)
    (hc : getChat st chatId = some chat) (limit : Int) (hlim : 0 < limit) :
    (∀ p : Int, p ≠ 0 → ∀ f1 f2 : Option String,
      getChatMessages st chatId f1 (some p) limit =
      getChatMessages st chatId f2 (some p) limit) ∧
    (∀ p : Int, 0 < p → ∀ fromId : Option String,
      (p + 1) * limit ≤ (chat.messages.length : Int) →
      ∃ r pre suf,
        getChatMessages st chatId fromId (some p) limit = .ok r ∧
        chat.messages = pre ++ r.messages ++ suf ∧
        r.messages.length = limit.toNat ∧
        suf.length = (p * limit).toNat) ∧
    (∀ pg : Option Int, (pg = none ∨ pg = some 0) →
      ∀ f : String, f ≠ "" → ∀ i : Nat,
      chat.messages.findIdx? (fun m => m.id == f) = some i →
      limit ≤ (i : Int) →
      ∃ r pre target,
        getChatMessages st chatId (some f) pg limit = .ok r ∧
        chat.messages = pre ++ r.messages ++ chat.messages.drop i ∧
        r.messages.length = limit.toNat ∧
        pre.length = i - limit.toNat ∧
        chat.messages.get? i = some target ∧ target.id = f) := by
  refine ⟨?_, ?_, ?_⟩
  · intro p hp f1 f2
    unfold getChatMessages
    simp only [hc, bne_iff_ne, ne_eq, hp, not_false_eq_true, if_true, Option.getD_some]
  · intro p hp fromId hfit
    have hlen : (0:Int) ≤ (chat.messages.length : Int) := by omega
    have he0 : (0:Int) ≤ (chat.messages.length : Int) - p * limit := by nlinarith
    have hs0 : (0:Int) ≤ (chat.messages.length : Int) - p * limit - limit := by nlinarith
    have hple : (0:Int) ≤ p * limit := by positivity
    have hval : getChatMessages st chatId fromId (some p) limit =
        .ok { hasMore := decide ((chat.messages.length : Int) - p * limit - limit ≠ 0),
              messages := jsSlice chat.messages
                ((chat.messages.length : Int) - p * limit - limit)
                ((chat.messages.length : Int) - p * limit) } := by
      unfold getChatMessages
      have hp0 : ¬ p = 0 := by omega
      simp [hc, hp0]
    have hslice := jsSlice_eq_take_drop chat.messages
      ((chat.messages.length : Int) - p * limit - limit)
      ((chat.messages.length : Int) - p * limit)
      hs0 (by omega) (by omega)
    refine ⟨_, chat.messages.take ((chat.messages.length : Int) - p * limit - limit).toNat,
      chat.messages.drop ((chat.messages.length : Int) - p * limit).toNat, hval, ?_, ?_, ?_⟩
    · simp only [hslice]
      exact take_drop_decomp chat.messages _ _ (by omega) (by omega)
    · simp only [hslice]
      rw [take_drop_window_length chat.messages _ _ (by omega)]
      omega
    · rw [List.length_drop]
      omega
  · intro pg hpg f hf i hfi hlimi
    have hilen : i < chat.messages.length := findIdx?_lt_length hfi
    have hidx : jsFindIndex (fun m => m.id == f) chat.messages = (i : Int) :=
      jsFindIndex_of_findIdx? hfi
    have hval : getChatMessages st chatId (some f) pg limit =
        .ok { hasMore := decide ((i : Int) - limit ≠ 0),
              messages := jsSlice chat.messages ((i : Int) - limit) (i : Int) } := by
      unfold getChatMessages
      rcases hpg with h | h <;> subst h <;>
        simp only [hc, bne_iff_ne, ne_eq, hf, not_false_eq_true, if_true, if_false,
          Option.getD_some, Option.getD_none, hidx, not_true_eq_false, ite_false,
          not_not, or_false, false_or] <;> rfl
    have hslice := jsSlice_eq_take_drop chat.messages ((i : Int) - limit) (i : Int)
      (by omega) (by omega) (by omega)
    have hget : chat.messages.get? i = some (chat.messages.get ⟨i, hilen⟩) :=
      List.get?_eq_get hilen
    have htid : (chat.messages.get ⟨i, hilen⟩).id = f := by
      have := findIdx?_found_elem hfi hget
      simpa using this
    refine ⟨_, chat.messages.take ((i : Int) - limit).toNat,
      chat.messages.get ⟨i, hilen⟩, hval, ?_, ?_, ?_, hget, htid⟩
    · simp only [hslice, Int.toNat_natCast]
      exact take_drop_decomp chat.messages ((i : Int) - limit).toNat i (by omega) (by omega)
    · simp only [hslice, Int.toNat_natCast]
      rw [take_drop_window_length chat.messages _ _ (by omega)]
      omega
    · rw [List.length_take]
      omega

/-- Witness for `c9_pagination_modes`: all three modes on the two-message chat. -/
theorem c9_pagination_modes_witness :
    (getChatMessages c9St "c9" (some "a") (some 2) 1 =
     getChatMessages c9St "c9" none (some 2) 1) ∧
    (∃ r pre suf, getChatMessages c9St "c9" none (some 1) 1 = .ok r ∧
      c9Chat.messages = pre ++ r.messages ++ suf ∧
      r.messages.length = (1:Int).toNat ∧ suf.length = ((1:Int) * 1).toNat) ∧
    (∃ r pre target, getChatMessages c9St "c9" (some "b") none 1 = .ok r ∧
      c9Chat.messages = pre ++ r.messages ++ c9Chat.messages.drop 1 ∧
      r.messages.length = (1:Int).toNat ∧ pre.length = 1 - (1:Int).toNat ∧
      c9Chat.messages.get? 1 = some target ∧ target.id = "b") := by
  refine ⟨?_, ?_, ?_⟩
  · exact (c9_pagination_modes c9St "c9" c9Chat rfl 1 (by decide)).1 2 (by decide)
      (some "a") none
  · exact (c9_pagination_modes c9St "c9" c9Chat rfl 1 (by decide)).2.1 1 (by decide)
      none (by decide)
  · exact (c9_pagination_modes c9St "c9" c9Chat rfl 1 (by decide)).2.2 none (Or.inl rfl)
      "b" (by decide) 1 rfl (by decide)

end DigitalTwin
